import Mathlib

/-!
Verification of the alexios webhook dispatcher and command parsers.

The definitions below are a shallow embedding of the Go source:
the command parsers (`parseSendCommand`, `parseReadCommand`,
`parseRegisterCommand`), the `webhook` handler with its four command
branches, and the store contract it calls. Go strings are Lean
`String`s, Go `int`/`int64` are Lean `Int`, the store is an oracle of
response functions, and every store call the handler makes is recorded
in a trace. A Go runtime panic (slice index out of range) is a
distinguished outcome constructor.
-/

namespace Alexios

/-- Character-level splitter for Go `strings.Split(s, " ")` restricted to the
single-space separator the source always uses: splits around every occurrence
of the space character, keeping empty segments, and yields `[""]` on the empty
string, exactly as Go does. -/
def splitChars : List Char → List (List Char)
  | [] => [[]]
  | c :: rest =>
    let r := splitChars rest
    if c = ' ' then [] :: r
    else
      match r with
      | h :: t => (c :: h) :: t
      | [] => [[c]]

/-- Embedding of Go `strings.Split(s, " ")`. -/
def splitOnSpace (s : String) : List String :=
  (splitChars s.data).map String.mk

/-- Concatenation of segments with single spaces, the inverse of `splitChars`:
used to express the untouched remainder that Go `strings.SplitN(s, " ", 3)`
leaves in the final segment. -/
def joinChars : List (List Char) → List Char
  | [] => []
  | [x] => x
  | x :: xs => x ++ ' ' :: joinChars xs

/-- String-level join with single spaces. -/
def joinSpace : List String → String
  | [] => ""
  | [x] => x
  | x :: xs => x ++ " " ++ joinSpace xs

/-- Embedding of Go `strings.SplitN(s, " ", 3)`: at most three segments, the
third being the raw remainder (splitting on every space and rejoining the tail
with spaces reconstructs that remainder verbatim). -/
def goSplitN3 (s : String) : List String :=
  match splitOnSpace s with
  | p0 :: p1 :: p2 :: rest => [p0, p1, joinSpace (p2 :: rest)]
  | parts => parts

/-- Numeric value of a digit string. -/
def digitsToNat (l : List Char) : Nat :=
  l.foldl (fun a c => a * 10 + (c.toNat - '0'.toNat)) 0

/-- Embedding of Go `strconv.Atoi`: optional sign, decimal digits, value must
fit a 64-bit `int`; `none` models a non-nil error. -/
def goAtoi (s : String) : Option Int :=
  let signed : Int × List Char :=
    match s.data with
    | '+' :: rest => (1, rest)
    | '-' :: rest => (-1, rest)
    | chars => (1, chars)
  let sign := signed.1
  let digits := signed.2
  if digits = [] then none
  else if digits.all Char.isDigit then
    let n : Int := sign * digitsToNat digits
    if n < -(2 ^ 63) ∨ 2 ^ 63 - 1 < n then none else some n
  else none

/-- Embedding of Go `strings.HasPrefix`. -/
def goHasPrefix (s pre : String) : Bool :=
  pre.data.isPrefixOf s.data

/-- `parseSendCommand` from the source: `strings.SplitN(command, " ", 3)`;
fewer than three parts yields `("", "")`, otherwise the second part is the
recipient username and the third the message text. -/
def parseSendCommand (command : String) : String × String :=
  match goSplitN3 command with
  | [_, username, message] => (username, message)
  | _ => ("", "")

/-- `parseReadCommand` from the source: `strings.Split(command, " ")`; fewer
than two parts, an `Atoi` failure, or a value below 1 yields `-1`, otherwise
the value minus one (zero-based index). -/
def parseReadCommand (command : String) : Int :=
  match splitOnSpace command with
  | _ :: p1 :: _ =>
    match goAtoi p1 with
    | none => -1
    | some index => if index < 1 then -1 else index - 1
  | _ => -1

/-- `parseRegisterCommand` from the source: `strings.SplitN(command, " ", 3)`;
fewer than three parts yields `""`, otherwise the third part is the username. -/
def parseRegisterCommand (command : String) : String :=
  match goSplitN3 command with
  | [_, _, username] => username
  | _ => ""

/-- Definition following the words of claim C5 (spec §4.1), for comparison
with `parseReadCommand`: split on whitespace (the delimiter of these commands
is the space character); the invalid sentinel `-1` when fewer than two
segments are present, when the second segment is not an integer, or when that
integer is less than 1; otherwise the integer minus one. -/
def parseRead_claim (command : String) : Int :=
  let parts := splitOnSpace command
  if parts.length < 2 then -1
  else
    match goAtoi (parts.getD 1 "") with
    | none => -1
    | some n => if n < 1 then -1 else n - 1

/-- `store.Message` from `internal/store/store.go`. `time.Time` values are
modelled by their rendered form (the handler only ever formats them with
`%s`), `int64` by `Int`. -/
structure Message where
  ID : Int
  Sender : String
  Time : String
  Payload : String
deriving DecidableEq, Repr

/-- Result of `RegisterUser`: nil error, `store.ErrConflict`, or any other
non-nil error (the only three cases the handler distinguishes via
`errors.Is(err, store.ErrConflict)`). -/
inductive RegResult where
  | ok
  | conflict
  | otherError
deriving DecidableEq, Repr

/-- The store oracle: one response function per operation of the `Store`
interface (`internal/store/store.go`) plus `RegisterUser`, which the handler
calls although the interface shown under the sources omits it. `Except Unit`
models Go's opaque `error`: `.error ()` is any non-nil error. -/
structure StoreBehavior where
  FindRecepient : String → Except Unit String
  ListMessages : String → Except Unit (List Message)
  GetMessage : Int → Except Unit Message
  SaveMessage : String → Message → Except Unit Unit
  RegisterUser : String → String → RegResult

/-- One store call made by the handler, with its arguments, recorded in order. -/
inductive StoreCall where
  | FindRecepient (username : String)
  | ListMessages (userID : String)
  | GetMessage (id : Int)
  | SaveMessage (userID : String) (msg : Message)
  | RegisterUser (userID : String) (username : String)
deriving DecidableEq, Repr

/-- `models.Request`, flattened: `request.type`, `request.command`,
`session.new`, `session.user.user_id`, `timezone`. -/
structure Request where
  reqType : String
  command : String
  sessionNew : Bool
  userID : String
  timezone : String
deriving DecidableEq, Repr

/-- Modelled from the spec: `models.TypeSimpleUtterance` lives in the
`internal/models` package, which is not among the sources; the spec fixes the
accepted request type string as `"SimpleUtterance"`. -/
def TypeSimpleUtterance : String := "SimpleUtterance"

/-- Caller-visible outcome of one request. `reply text` is an HTTP 200
response carrying the envelope with `response.text = text` and
`version = "1.0"`; `abort status` is `w.WriteHeader(status)` with no envelope
body; `panicked` is a Go runtime panic (slice index out of range) before any
status is written. -/
inductive HttpOutcome where
  | reply (text : String)
  | abort (status : Nat)
  | panicked
deriving DecidableEq, Repr

/-- The four command branches of the handler's `switch`. -/
inductive Branch where
  | send
  | read
  | signUp
  | unrecognized
deriving DecidableEq, Repr

/-- Branch classification from the source: ordered `strings.HasPrefix` tests
against `"Send"`, `"Read"`, `"Sign Up"`, else the default branch. -/
def branchOf (command : String) : Branch :=
  if goHasPrefix command "Send" then .send
  else if goHasPrefix command "Read" then .read
  else if goHasPrefix command "Sign Up" then .signUp
  else .unrecognized

/-- Reply text of the default branch before any time prefix:
`"There is no new messages for you."`, overwritten with the count sentence
when the mailbox is non-empty. -/
def countText (messages : List Message) : String :=
  if messages.length > 0 then
    "There are " ++ toString messages.length ++ " new messages."
  else "There is no new messages for you."

/-- The `switch` body of `webhook`: one command branch, given the store
oracle, the timezone clock oracle (`clock tz` is the `(hour, minute)` of
`time.Now().In(tz)`, `none` when `time.LoadLocation(tz)` fails) and `now`,
the rendered dispatch time stamped on saved messages. Returns the outcome and
the ordered trace of store calls. -/
def dispatch (sb : StoreBehavior) (clock : String → Option (Nat × Nat))
    (now : String) (req : Request) : HttpOutcome × List StoreCall :=
  match branchOf req.command with
  | .send =>
    let parsed := parseSendCommand req.command
    let username := parsed.1
    let message := parsed.2
    match sb.FindRecepient username with
    | .error _ => (.abort 500, [.FindRecepient username])
    | .ok recepientID =>
      let msg : Message := ⟨0, req.userID, now, message⟩
      match sb.SaveMessage recepientID msg with
      | .error _ =>
        (.abort 500, [.FindRecepient username, .SaveMessage recepientID msg])
      | .ok _ =>
        (.reply "The message was sent successfully.",
         [.FindRecepient username, .SaveMessage recepientID msg])
  | .read =>
    let messageIndex := parseReadCommand req.command
    match sb.ListMessages req.userID with
    | .error _ => (.abort 500, [.ListMessages req.userID])
    | .ok messages =>
      if (messages.length : Int) < messageIndex then
        (.reply "There is no such a message.", [.ListMessages req.userID])
      else
        -- Go evaluates messages[messageIndex] here; outside [0, len) that is
        -- a runtime panic, not a reply.
        if h : 0 ≤ messageIndex ∧ messageIndex.toNat < messages.length then
          let messageID := (messages.get ⟨messageIndex.toNat, h.2⟩).ID
          match sb.GetMessage messageID with
          | .error _ =>
            (.abort 500, [.ListMessages req.userID, .GetMessage messageID])
          | .ok message =>
            (.reply ("Message from " ++ message.Sender ++ ", was sent at " ++
              message.Time ++ ": " ++ message.Payload),
             [.ListMessages req.userID, .GetMessage messageID])
        else (.panicked, [.ListMessages req.userID])
  | .signUp =>
    let username := parseRegisterCommand req.command
    match sb.RegisterUser req.userID username with
    | .otherError => (.abort 500, [.RegisterUser req.userID username])
    | .ok =>
      (.reply ("You have successfully been registered as " ++ username),
       [.RegisterUser req.userID username])
    | .conflict =>
      (.reply "Sorry, this name has already been used. Try another name.",
       [.RegisterUser req.userID username])
  | .unrecognized =>
    match sb.ListMessages req.userID with
    | .error _ => (.abort 500, [.ListMessages req.userID])
    | .ok messages =>
      let text := countText messages
      if req.sessionNew then
        match clock req.timezone with
        | none => (.abort 400, [.ListMessages req.userID])
        | some hm =>
          (.reply ("Exact time " ++ toString hm.1 ++ " hours, " ++
            toString hm.2 ++ " minutes. " ++ text),
           [.ListMessages req.userID])
      else (.reply text, [.ListMessages req.userID])

/-- The `webhook` handler: the method gate (405), the JSON-decode gate
(`body = none` models a decode error, 400), the request-type gate (422), then
the command `switch`. -/
def webhook (sb : StoreBehavior) (clock : String → Option (Nat × Nat))
    (now : String) (method : String) (body : Option Request) :
    HttpOutcome × List StoreCall :=
  if method ≠ "POST" then (.abort 405, [])
  else
    match body with
    | none => (.abort 400, [])
    | some req =>
      if req.reqType ≠ TypeSimpleUtterance then (.abort 422, [])
      else dispatch sb clock now req

/-- Modelled from the spec: the concrete store implementation of
`RegisterUser` (the `internal/store/pg` package) is not among the sources;
the spec mandates a single atomic check-and-insert against the username
uniqueness constraint. The store state is the list of
`(identity, username)` bindings; the whole check-and-insert is one atomic
step, so a concurrent execution of two registrations is exactly one of the
two sequential orders. -/
def registerUserAtomic (users : List (String × String))
    (identity username : String) : RegResult × List (String × String) :=
  if users.any (fun b => b.2 = username) then (.conflict, users)
  else (.ok, users ++ [(identity, username)])

/-- A store with an empty mailbox for every user and failing lookups. -/
def emptyStore : StoreBehavior where
  FindRecepient _ := .error ()
  ListMessages _ := .ok []
  GetMessage _ := .error ()
  SaveMessage _ _ := .ok ()
  RegisterUser _ _ := .ok

/-- A store that resolves every username to the identity `"r0"`, accepts every
save and registration, and has an empty mailbox for every user. -/
def acceptingStore : StoreBehavior where
  FindRecepient _ := .ok "r0"
  ListMessages _ := .ok []
  GetMessage _ := .error ()
  SaveMessage _ _ := .ok ()
  RegisterUser _ _ := .ok

/-- A store whose registration always reports the username conflict. -/
def conflictStore : StoreBehavior where
  FindRecepient _ := .error ()
  ListMessages _ := .ok []
  GetMessage _ := .error ()
  SaveMessage _ _ := .ok ()
  RegisterUser _ _ := .conflict

/-- A store whose every operation fails with a nonspecific error. -/
def failingStore : StoreBehavior where
  FindRecepient _ := .error ()
  ListMessages _ := .error ()
  GetMessage _ := .error ()
  SaveMessage _ _ := .error ()
  RegisterUser _ _ := .otherError

/-- A clock oracle that fails to parse every timezone. -/
def noClock : String → Option (Nat × Nat) := fun _ => none

/-- A clock oracle that reads 12:30 in every timezone. -/
def clock1230 : String → Option (Nat × Nat) := fun _ => some (12, 30)

theorem splitChars_ne_nil (l : List Char) : splitChars l ≠ [] := by
  induction l with
  | nil => simp [splitChars]
  | cons c rest ih =>
    simp only [splitChars]
    split
    · simp
    · match h : splitChars rest with
      | [] => exact absurd h ih
      | hd :: tl => simp

theorem joinChars_splitChars (l : List Char) : joinChars (splitChars l) = l := by
  induction l with
  | nil => rfl
  | cons c rest ih =>
    by_cases hc : c = ' '
    · subst hc
      simp only [splitChars, if_pos rfl]
      match h : splitChars rest with
      | [] => exact absurd h (splitChars_ne_nil rest)
      | hd :: tl =>
        rw [h] at ih
        simpa [joinChars] using ih
    · simp only [splitChars, if_neg hc]
      match h : splitChars rest with
      | [] => exact absurd h (splitChars_ne_nil rest)
      | hd :: tl =>
        rw [h] at ih
        match tl with
        | [] =>
          simp only [joinChars] at ih ⊢
          rw [ih]
        | x :: xs =>
          simp only [joinChars, List.cons_append] at ih ⊢
          rw [ih]

theorem splitChars_append (l₁ l₂ : List Char) (h : ' ' ∉ l₁) :
    splitChars (l₁ ++ ' ' :: l₂) = l₁ :: splitChars l₂ := by
  induction l₁ with
  | nil => simp [splitChars]
  | cons c t ih =>
    have hc : ¬ c = ' ' := by
      intro hcs
      exact h (hcs ▸ List.mem_cons_self c t)
    have ht : ' ' ∉ t := fun hm => h (List.mem_cons_of_mem c hm)
    simp only [List.cons_append, splitChars, if_neg hc, List.append_eq, ih ht]

theorem joinSpace_map_mk (L : List (List Char)) :
    joinSpace (L.map String.mk) = String.mk (joinChars L) := by
  induction L with
  | nil => rfl
  | cons x ys ih =>
    match ys with
    | [] => rfl
    | y :: ys2 =>
      show String.mk x ++ " " ++ joinSpace ((y :: ys2).map String.mk) =
        String.mk (x ++ ' ' :: joinChars (y :: ys2))
      rw [ih]
      show String.mk ((x ++ [' ']) ++ joinChars (y :: ys2)) =
        String.mk (x ++ ' ' :: joinChars (y :: ys2))
      rw [List.append_assoc]
      rfl

theorem splitOnSpace_cons (w s : String) (h : ' ' ∉ w.data) :
    splitOnSpace (w ++ " " ++ s) = w :: splitOnSpace s := by
  unfold splitOnSpace
  have hdata : (w ++ " " ++ s).data = w.data ++ ' ' :: s.data := by
    simp [String.data_append]
  rw [hdata, splitChars_append _ _ h, List.map_cons]

theorem joinSpace_splitOnSpace (s : String) : joinSpace (splitOnSpace s) = s := by
  unfold splitOnSpace
  rw [joinSpace_map_mk, joinChars_splitChars]

theorem splitOnSpace_ne_nil (s : String) : splitOnSpace s ≠ [] := by
  unfold splitOnSpace
  simp [splitChars_ne_nil]

theorem goSplitN3_short (c : String) (h : (splitOnSpace c).length < 3) :
    goSplitN3 c = splitOnSpace c := by
  unfold goSplitN3
  match hs : splitOnSpace c with
  | [] => rfl
  | [a] => rfl
  | [a, b] => rfl
  | a :: b :: d :: t => rw [hs] at h; simp at h; omega

theorem parseSendCommand_short (c : String) (h : (splitOnSpace c).length < 3) :
    parseSendCommand c = ("", "") := by
  unfold parseSendCommand
  rw [goSplitN3_short c h]
  match hs : splitOnSpace c with
  | [] => rfl
  | [a] => rfl
  | [a, b] => rfl
  | a :: b :: d :: t => rw [hs] at h; simp at h; omega

theorem parseRegisterCommand_short (c : String) (h : (splitOnSpace c).length < 3) :
    parseRegisterCommand c = "" := by
  unfold parseRegisterCommand
  rw [goSplitN3_short c h]
  match hs : splitOnSpace c with
  | [] => rfl
  | [a] => rfl
  | [a, b] => rfl
  | a :: b :: d :: t => rw [hs] at h; simp at h; omega

theorem parseSendCommand_parts (c p0 p1 p2 : String)
    (h : goSplitN3 c = [p0, p1, p2]) : parseSendCommand c = (p1, p2) := by
  unfold parseSendCommand
  rw [h]

theorem parseSendCommand_round (u rest : String) (hu : ' ' ∉ u.data) :
    parseSendCommand ("Send " ++ u ++ " " ++ rest) = (u, rest) := by
  have h1 : "Send " ++ u ++ " " ++ rest = "Send" ++ " " ++ (u ++ " " ++ rest) := by
    apply String.ext
    simp [String.data_append]
  rw [parseSendCommand, goSplitN3, h1, splitOnSpace_cons _ _ (by decide),
    splitOnSpace_cons _ _ hu]
  match hs : splitOnSpace rest with
  | [] => exact absurd hs (splitOnSpace_ne_nil rest)
  | p :: t =>
    have hj : joinSpace (p :: t) = rest := by
      rw [← hs, joinSpace_splitOnSpace]
    simp [hj]

theorem parseRegisterCommand_round (u : String) :
    parseRegisterCommand ("Sign Up " ++ u) = u := by
  have h1 : "Sign Up " ++ u = "Sign" ++ " " ++ ("Up" ++ " " ++ u) := by
    apply String.ext
    simp [String.data_append]
  rw [parseRegisterCommand, goSplitN3, h1, splitOnSpace_cons _ _ (by decide),
    splitOnSpace_cons _ _ (by decide)]
  match hs : splitOnSpace u with
  | [] => exact absurd hs (splitOnSpace_ne_nil u)
  | p :: t =>
    have hj : joinSpace (p :: t) = u := by
      rw [← hs, joinSpace_splitOnSpace]
    simp [hj]

theorem webhook_post_ok (sb : StoreBehavior) (clock : String → Option (Nat × Nat))
    (now : String) (req : Request) (hty : req.reqType = TypeSimpleUtterance) :
    webhook sb clock now "POST" (some req) = dispatch sb clock now req := by
  unfold webhook
  rw [if_neg (by simp)]
  simp [hty]

theorem dispatch_signUp (sb : StoreBehavior) (clock : String → Option (Nat × Nat))
    (now : String) (req : Request) (hbr : branchOf req.command = .signUp) :
    dispatch sb clock now req =
      match sb.RegisterUser req.userID (parseRegisterCommand req.command) with
      | .otherError =>
        (.abort 500, [.RegisterUser req.userID (parseRegisterCommand req.command)])
      | .ok =>
        (.reply ("You have successfully been registered as " ++
          parseRegisterCommand req.command),
         [.RegisterUser req.userID (parseRegisterCommand req.command)])
      | .conflict =>
        (.reply "Sorry, this name has already been used. Try another name.",
         [.RegisterUser req.userID (parseRegisterCommand req.command)]) := by
  unfold dispatch
  rw [hbr]

/-- Claim C5: for every command string, `parseReadCommand` splits on the
whitespace delimiter and returns the invalid sentinel `-1` (negative, disjoint
from every zero-based index) when fewer than two segments are present, when
the second segment is not an integer, or when that integer is less than 1;
otherwise it returns the integer minus one. In particular
`parseReadCommand "Read 3" = 2` and `parseReadCommand "Read 0" = -1`. -/
theorem C5_parseRead_correct :
    (∀ c : String, parseReadCommand c = parseRead_claim c) ∧
    parseReadCommand "Read 3" = 2 ∧ parseReadCommand "Read 0" = -1 := by
  refine ⟨fun c => ?_, by decide, by decide⟩
  unfold parseReadCommand parseRead_claim
  match hs : splitOnSpace c with
  | [] => rfl
  | [a] => rfl
  | a :: b :: t =>
    have hlen : ¬ (a :: b :: t).length < 2 := by simp
    rw [if_neg hlen]
    rfl

/-- Claim C6: for every command string, `parseSendCommand` splits it into at
most three space-delimited segments, returns the malformed marker `("", "")`
when fewer than three segments are present, and on success returns the second
segment verbatim as the recipient and the entire remainder — internal spaces
and punctuation included — as the body. In particular
`parseSendCommand "Send John Hello there" = ("John", "Hello there")` and
`parseSendCommand "Send John" = ("", "")`. -/
theorem C6_parseSend_correct :
    (∀ c : String, (splitOnSpace c).length < 3 → parseSendCommand c = ("", "")) ∧
    (∀ c p0 p1 p2 : String, goSplitN3 c = [p0, p1, p2] →
      parseSendCommand c = (p1, p2)) ∧
    (∀ u rest : String, ' ' ∉ u.data →
      parseSendCommand ("Send " ++ u ++ " " ++ rest) = (u, rest)) ∧
    parseSendCommand "Send John Hello there" = ("John", "Hello there") ∧
    parseSendCommand "Send John" = ("", "") :=
  ⟨parseSendCommand_short, parseSendCommand_parts, parseSendCommand_round,
   by decide, by decide⟩

/-- Witness for C6 at concrete inputs: the malformed case on "Send John" and
the remainder-with-spaces case on "Send John Hello there". -/
theorem C6_parseSend_correct_witness :
    parseSendCommand "Send John" = ("", "") ∧
    parseSendCommand "Send John Hello there" = ("John", "Hello there") := by
  constructor
  · exact C6_parseSend_correct.1 "Send John" (by decide)
  · have h := C6_parseSend_correct.2.2.1 "John" "Hello there" (by decide)
    rw [show "Send " ++ "John" ++ " " ++ "Hello there" = "Send John Hello there" from by decide] at h
    exact h

/-- Claim C7: for every command string, `parseRegisterCommand` splits it into
at most three space-delimited segments, returns `""` when fewer than three
segments are present, and otherwise returns the third segment (the raw
remainder) verbatim; in particular
`parseRegisterCommand "Sign Up John" = "John"`. -/
theorem C7_parseRegister_correct :
    (∀ c : String, (splitOnSpace c).length < 3 → parseRegisterCommand c = "") ∧
    (∀ u : String, parseRegisterCommand ("Sign Up " ++ u) = u) ∧
    parseRegisterCommand "Sign Up John" = "John" :=
  ⟨parseRegisterCommand_short, parseRegisterCommand_round, by decide⟩

/-- Witness for C7 at concrete inputs: the bare "Sign Up" command and a
registration with a concrete username. -/
theorem C7_parseRegister_correct_witness :
    parseRegisterCommand "Sign Up" = "" ∧
    parseRegisterCommand "Sign Up Mary" = "Mary" := by
  constructor
  · exact C7_parseRegister_correct.1 "Sign Up" (by decide)
  · have h := C7_parseRegister_correct.2.1 "Mary"
    rw [show "Sign Up " ++ "Mary" = "Sign Up Mary" from by decide] at h
    exact h

/-- Claim C2: with the registration modelled as the atomic check-and-insert
the spec mandates, two racing registrations of the same unbound username `u`
by callers `i1` and `i2` — in either of the two orders an interleaving of
atomic steps can take — yield exactly one success and one conflict, never two
successes and never a generic error. -/
theorem C2_register_race (u i1 i2 : String) (users : List (String × String))
    (h : ∀ b ∈ users, b.2 ≠ u) :
    (registerUserAtomic users i1 u).1 = .ok ∧
    (registerUserAtomic (registerUserAtomic users i1 u).2 i2 u).1 = .conflict ∧
    (registerUserAtomic users i2 u).1 = .ok ∧
    (registerUserAtomic (registerUserAtomic users i2 u).2 i1 u).1 = .conflict := by
  have hany : ∀ i : String, registerUserAtomic users i u = (.ok, users ++ [(i, u)]) := by
    intro i
    unfold registerUserAtomic
    rw [if_neg]
    simp only [List.any_eq_true, decide_eq_true_eq]
    rintro ⟨b, hb, hbu⟩
    exact h b hb hbu
  have hconf : ∀ i j : String, (registerUserAtomic (users ++ [(i, u)]) j u).1 = .conflict := by
    intro i j
    unfold registerUserAtomic
    rw [if_pos]
    simp
  refine ⟨by rw [hany i1], ?_, by rw [hany i2], ?_⟩
  · rw [hany i1]
    exact hconf i1 i2
  · rw [hany i2]
    exact hconf i2 i1

/-- Witness for C2: two registrations of "John" against the empty store. -/
theorem C2_register_race_witness :
    (registerUserAtomic [] "id1" "John").1 = .ok ∧
    (registerUserAtomic (registerUserAtomic [] "id1" "John").2 "id2" "John").1 = .conflict :=
  ⟨(C2_register_race "John" "id1" "id2" [] (by simp)).1,
   (C2_register_race "John" "id1" "id2" [] (by simp)).2.1⟩

/-- Claim C8: the validation gates map outcomes to statuses exactly: a method
other than POST yields 405, an undecodable body yields 400, a request type
other than "SimpleUtterance" yields 422, each aborting with the bare status,
no envelope body and no store call; only requests passing all three gates
reach the command dispatch. -/
theorem C8_validation_gates (sb : StoreBehavior)
    (clock : String → Option (Nat × Nat)) (now : String)
    (method : String) (body : Option Request) :
    (method ≠ "POST" → webhook sb clock now method body = (.abort 405, [])) ∧
    (webhook sb clock now "POST" none = (.abort 400, [])) ∧
    (∀ req : Request, req.reqType ≠ TypeSimpleUtterance →
      webhook sb clock now "POST" (some req) = (.abort 422, [])) ∧
    (∀ req : Request, req.reqType = TypeSimpleUtterance →
      webhook sb clock now "POST" (some req) = dispatch sb clock now req) := by
  refine ⟨fun hm => ?_, ?_, fun req ht => ?_,
    fun req ht => webhook_post_ok sb clock now req ht⟩
  · unfold webhook
    rw [if_pos hm]
  · unfold webhook
    rw [if_neg (by simp)]
  · unfold webhook
    rw [if_neg (by simp)]
    show (if req.reqType ≠ TypeSimpleUtterance then
        ((.abort 422, []) : HttpOutcome × List StoreCall)
      else dispatch sb clock now req) = (.abort 422, [])
    rw [if_pos ht]

/-- Witness for C8: all four gate outcomes at concrete requests. -/
theorem C8_validation_gates_witness :
    webhook emptyStore noClock "t0" "GET" none = (.abort 405, []) ∧
    webhook emptyStore noClock "t0" "POST" none = (.abort 400, []) ∧
    webhook emptyStore noClock "t0" "POST"
      (some ⟨"Other", "Read 1", false, "u1", "UTC"⟩) = (.abort 422, []) ∧
    webhook emptyStore noClock "t0" "POST"
      (some ⟨"SimpleUtterance", "Hello", false, "u1", "UTC"⟩) =
      dispatch emptyStore noClock "t0" ⟨"SimpleUtterance", "Hello", false, "u1", "UTC"⟩ :=
  ⟨(C8_validation_gates emptyStore noClock "t0" "GET" none).1 (by decide),
   (C8_validation_gates emptyStore noClock "t0" "GET" none).2.1,
   (C8_validation_gates emptyStore noClock "t0" "GET" none).2.2.1 _ (by decide),
   (C8_validation_gates emptyStore noClock "t0" "GET" none).2.2.2 _ rfl⟩

/-- Claim C3: for every request reaching the Sign Up branch with parsed
username `u`: store success yields the reply
`"You have successfully been registered as " ++ u` at HTTP 200; the conflict
error yields the fixed apology at HTTP 200; any other registration error
aborts with HTTP 500 and no reply body. -/
theorem C3_signup_outcomes (sb : StoreBehavior)
    (clock : String → Option (Nat × Nat)) (now : String) (req : Request)
    (u : String) (hty : req.reqType = TypeSimpleUtterance)
    (hbr : branchOf req.command = .signUp)
    (hu : parseRegisterCommand req.command = u) :
    (sb.RegisterUser req.userID u = .ok →
      webhook sb clock now "POST" (some req) =
        (.reply ("You have successfully been registered as " ++ u),
         [.RegisterUser req.userID u])) ∧
    (sb.RegisterUser req.userID u = .conflict →
      webhook sb clock now "POST" (some req) =
        (.reply "Sorry, this name has already been used. Try another name.",
         [.RegisterUser req.userID u])) ∧
    (sb.RegisterUser req.userID u = .otherError →
      webhook sb clock now "POST" (some req) =
        (.abort 500, [.RegisterUser req.userID u])) := by
  rw [webhook_post_ok sb clock now req hty, dispatch_signUp sb clock now req hbr, hu]
  exact ⟨fun hres => by rw [hres], fun hres => by rw [hres], fun hres => by rw [hres]⟩

/-- Witness for C3: the three registration outcomes on the end-to-end
request "Sign Up John". -/
theorem C3_signup_outcomes_witness :
    webhook acceptingStore noClock "t0" "POST"
      (some ⟨"SimpleUtterance", "Sign Up John", true, "u1", "UTC"⟩) =
      (.reply ("You have successfully been registered as " ++ "John"),
       [.RegisterUser "u1" "John"]) ∧
    webhook conflictStore noClock "t0" "POST"
      (some ⟨"SimpleUtterance", "Sign Up John", true, "u2", "UTC"⟩) =
      (.reply "Sorry, this name has already been used. Try another name.",
       [.RegisterUser "u2" "John"]) ∧
    webhook failingStore noClock "t0" "POST"
      (some ⟨"SimpleUtterance", "Sign Up John", true, "u3", "UTC"⟩) =
      (.abort 500, [.RegisterUser "u3" "John"]) :=
  ⟨(C3_signup_outcomes acceptingStore noClock "t0" _ "John" rfl (by decide) (by decide)).1 rfl,
   (C3_signup_outcomes conflictStore noClock "t0" _ "John" rfl (by decide) (by decide)).2.1 rfl,
   (C3_signup_outcomes failingStore noClock "t0" _ "John" rfl (by decide) (by decide)).2.2 rfl⟩

/-- Claim C9: on the default branch with the session-new flag set, an
unparseable timezone aborts the whole request with 400 and no partial reply;
a parseable one prefixes the mailbox-count text with the local time. With the
flag unset the timezone is never consulted and no prefix is added. -/
theorem C9_default_timezone (sb : StoreBehavior)
    (clock : String → Option (Nat × Nat)) (now : String) (req : Request)
    (msgs : List Message) (hty : req.reqType = TypeSimpleUtterance)
    (hbr : branchOf req.command = .unrecognized)
    (hls : sb.ListMessages req.userID = .ok msgs) :
    (req.sessionNew = true → clock req.timezone = none →
      webhook sb clock now "POST" (some req) =
        (.abort 400, [.ListMessages req.userID])) ∧
    (∀ hr mn : Nat, req.sessionNew = true → clock req.timezone = some (hr, mn) →
      webhook sb clock now "POST" (some req) =
        (.reply ("Exact time " ++ toString hr ++ " hours, " ++ toString mn ++
          " minutes. " ++ countText msgs),
         [.ListMessages req.userID])) ∧
    (req.sessionNew = false → ∀ clock2 : String → Option (Nat × Nat),
      webhook sb clock2 now "POST" (some req) =
        (.reply (countText msgs), [.ListMessages req.userID])) := by
  refine ⟨fun hnew hcl => ?_, fun hr mn hnew hcl => ?_, fun hnew clock2 => ?_⟩
  · rw [webhook_post_ok sb clock now req hty]
    unfold dispatch
    rw [hbr, hls]
    simp [hnew, hcl]
  · rw [webhook_post_ok sb clock now req hty]
    unfold dispatch
    rw [hbr, hls]
    simp [hnew, hcl]
  · rw [webhook_post_ok sb clock2 now req hty]
    unfold dispatch
    rw [hbr, hls]
    simp [hnew]

/-- Witness for C9: the three timezone outcomes at concrete requests against
an empty mailbox. -/
theorem C9_default_timezone_witness :
    webhook emptyStore noClock "t0" "POST"
      (some ⟨"SimpleUtterance", "Hello", true, "u1", "Nowhere/Zone"⟩) =
      (.abort 400, [.ListMessages "u1"]) ∧
    webhook emptyStore clock1230 "t0" "POST"
      (some ⟨"SimpleUtterance", "Hello", true, "u1", "UTC"⟩) =
      (.reply ("Exact time " ++ toString 12 ++ " hours, " ++ toString 30 ++
        " minutes. " ++ countText []), [.ListMessages "u1"]) ∧
    webhook emptyStore noClock "t0" "POST"
      (some ⟨"SimpleUtterance", "Hello", false, "u1", "UTC"⟩) =
      (.reply (countText []), [.ListMessages "u1"]) :=
  ⟨(C9_default_timezone emptyStore noClock "t0" _ [] rfl (by decide) rfl).1 rfl rfl,
   (C9_default_timezone emptyStore clock1230 "t0" _ [] rfl (by decide) rfl).2.1 12 30 rfl rfl,
   (C9_default_timezone emptyStore clock1230 "t0" _ [] rfl (by decide) rfl).2.2 rfl noClock⟩

/-- Claim C10: a command taking the Sign Up branch with fewer than three
space-delimited segments (for example the bare "Sign Up") is not rejected:
the dispatcher invokes the store registration with the empty string as the
username, and if the store accepts, the caller receives the success
confirmation naming the empty username. -/
theorem C10_signup_empty_username (sb : StoreBehavior)
    (clock : String → Option (Nat × Nat)) (now : String) (req : Request)
    (hty : req.reqType = TypeSimpleUtterance)
    (hbr : branchOf req.command = .signUp)
    (hlen : (splitOnSpace req.command).length < 3) :
    parseRegisterCommand req.command = "" ∧
    (webhook sb clock now "POST" (some req)).2 = [.RegisterUser req.userID ""] ∧
    (sb.RegisterUser req.userID "" = .ok →
      webhook sb clock now "POST" (some req) =
        (.reply ("You have successfully been registered as " ++ ""),
         [.RegisterUser req.userID ""])) := by
  have hp : parseRegisterCommand req.command = "" :=
    parseRegisterCommand_short _ hlen
  refine ⟨hp, ?_, fun hok => ?_⟩
  · rw [webhook_post_ok sb clock now req hty, dispatch_signUp sb clock now req hbr, hp]
    cases hres : sb.RegisterUser req.userID "" <;> rfl
  · rw [webhook_post_ok sb clock now req hty, dispatch_signUp sb clock now req hbr, hp, hok]

/-- Witness for C10: the bare command "Sign Up" against a store that accepts
every registration. -/
theorem C10_signup_empty_username_witness :
    webhook acceptingStore noClock "t0" "POST"
      (some ⟨"SimpleUtterance", "Sign Up", false, "u1", "UTC"⟩) =
      (.reply ("You have successfully been registered as " ++ ""),
       [.RegisterUser "u1" ""]) :=
  (C10_signup_empty_username acceptingStore noClock "t0" _ rfl (by decide) (by decide)).2.2 rfl

/-- Claim C1 fails on the code: the Read branch guards the mailbox access
with the strict comparison `len(messages) < messageIndex` and never
re-validates the `-1` sentinel, so requesting position 1 on an empty mailbox
(zero-based index 0) or an unparseable position (index `-1`) reaches
`messages[messageIndex]` out of range — a runtime panic, not the "no message"
reply. Only positions strictly beyond length+1 get the graceful reply. -/
theorem C1_read_bounds_failing :
    webhook emptyStore noClock "t0" "POST"
      (some ⟨"SimpleUtterance", "Read 1", false, "u1", "UTC"⟩) =
      (.panicked, [.ListMessages "u1"]) ∧
    webhook emptyStore noClock "t0" "POST"
      (some ⟨"SimpleUtterance", "Read x", false, "u1", "UTC"⟩) =
      (.panicked, [.ListMessages "u1"]) ∧
    webhook emptyStore noClock "t0" "POST"
      (some ⟨"SimpleUtterance", "Read 2", false, "u1", "UTC"⟩) =
      (.reply "There is no such a message.", [.ListMessages "u1"]) :=
  ⟨by decide, by decide, by decide⟩

/-- Claim C4 fails on the code: the Send branch never checks the malformed
marker. On "Send John" the parser yields `("", "")`, the dispatcher resolves
the empty username and, when the store accepts, persists a message with empty
payload and replies success; when the lookup fails it aborts with 500, a
server error rather than a graceful reply or client error. -/
theorem C4_send_malformed_failing :
    webhook acceptingStore noClock "t0" "POST"
      (some ⟨"SimpleUtterance", "Send John", false, "u1", "UTC"⟩) =
      (.reply "The message was sent successfully.",
       [.FindRecepient "", .SaveMessage "r0" ⟨0, "u1", "t0", ""⟩]) ∧
    webhook emptyStore noClock "t0" "POST"
      (some ⟨"SimpleUtterance", "Send John", false, "u1", "UTC"⟩) =
      (.abort 500, [.FindRecepient ""]) :=
  ⟨by decide, by decide⟩

end Alexios
